import Mathlib

/-!
Verification of the rust-plurk OAuth 1.0a request-signing engine and
authorization flow, as a shallow embedding of `src/oauth1.rs`,
`src/plurk.rs` and `src/secret.rs`.

Strings are modelled as Lean `String`/`List Char`; bytes as `Nat`
(all concrete inputs are ASCII, where the char code equals the UTF-8
byte).  Machine 32-bit arithmetic in SHA-1 is `Nat` with `% 2^32`.
-/

set_option maxRecDepth 100000
set_option maxHeartbeats 4000000

namespace RustPlurk

abbrev Pair := String × String

/-! ## Percent-encoding (the `url_escape` / `form_urlencoded` crates) -/

/-- Uppercase hexadecimal digit for `n < 16`. -/
def hexDigitChar (n : Nat) : Char :=
  (String.data "0123456789ABCDEF").getD n '0'

/-- UTF-8 bytes of a character (standard 1-to-4 byte encoding). -/
def utf8Bytes (c : Char) : List Nat :=
  let n := c.toNat
  if n < 128 then [n]
  else if n < 2048 then [192 + n / 64, 128 + n % 64]
  else if n < 65536 then [224 + n / 4096, 128 + (n / 64) % 64, 128 + n % 64]
  else [240 + n / 262144, 128 + (n / 4096) % 64, 128 + (n / 64) % 64, 128 + n % 64]

/-- Characters that both the `form_urlencoded` serializer and
`url_escape::encode_www_form_urlencoded` leave unescaped:
ASCII alphanumerics and `*`, `-`, `.`, `_`. -/
def isKeepChar (c : Char) : Bool :=
  c.isAlphanum || c == '*' || c == '-' || c == '.' || c == '_'

/-- Percent-escape of one byte: `%XX` with uppercase hex. -/
def pctByte (b : Nat) : List Char :=
  ['%', hexDigitChar (b / 16 % 16), hexDigitChar (b % 16)]

/-- One character under the `form_urlencoded` byte serializer
(`serde_urlencoded::to_string`): keep-set characters pass through,
space becomes `+`, everything else is percent-escaped per UTF-8 byte. -/
def byteSerializeChar (c : Char) : List Char :=
  if c == ' ' then ['+']
  else if isKeepChar c then [c]
  else (utf8Bytes c).flatMap pctByte

/-- `form_urlencoded` byte serializer over a character list. -/
def byteSerializeCl : List Char → List Char
  | [] => []
  | c :: cs => byteSerializeChar c ++ byteSerializeCl cs

/-- One character under `url_escape::encode_www_form_urlencoded`:
keep-set characters pass through, everything else (including space,
`+`, `~`) is percent-escaped per UTF-8 byte. -/
def wwwFormChar (c : Char) : List Char :=
  if isKeepChar c then [c] else (utf8Bytes c).flatMap pctByte

/-- `url_escape::encode_www_form_urlencoded` over a character list. -/
def wwwFormCl : List Char → List Char
  | [] => []
  | c :: cs => wwwFormChar c ++ wwwFormCl cs

/-- `url_escape::encode_www_form_urlencoded` on strings. -/
def wwwFormEncode (s : String) : String := String.mk (wwwFormCl s.data)

/-! ## Form-urlencoded serialization and parsing -/

/-- Serialization of a pair list as `k=v&k=v&…` with the
`form_urlencoded` byte serializer applied to each key and value;
this is `serde_urlencoded::to_string` on `Vec<(String, String)>`. -/
def formSerializeCl : List (List Char × List Char) → List Char
  | [] => []
  | [(k, v)] => byteSerializeCl k ++ '=' :: byteSerializeCl v
  | (k, v) :: p :: rest =>
      byteSerializeCl k ++ '=' :: byteSerializeCl v ++ '&' :: formSerializeCl (p :: rest)

/-- String-level `serde_urlencoded::to_string`. -/
def formSerialize (pairs : List Pair) : String :=
  String.mk (formSerializeCl (pairs.map fun p => (p.1.data, p.2.data)))

/-- Split a character list on a separator character; always returns at
least one (possibly empty) segment, like Rust `str::split`. -/
def splitOnC (sep : Char) : List Char → List (List Char)
  | [] => [[]]
  | c :: cs =>
    match splitOnC sep cs with
    | [] => [[]]
    | seg :: segs => if c == sep then [] :: seg :: segs else (c :: seg) :: segs

/-- Split at the first occurrence of a separator: segment before it and,
when present, the whole remainder after it (Rust `splitn(2, sep)`). -/
def splitFirstC (sep : Char) : List Char → List Char × Option (List Char)
  | [] => ([], none)
  | c :: cs =>
    if c == sep then ([], some cs)
    else
      let r := splitFirstC sep cs
      (c :: r.1, r.2)

/-- Hexadecimal digit test. -/
def isHexDigit (c : Char) : Bool :=
  c.isDigit || ('a' ≤ c && c ≤ 'f') || ('A' ≤ c && c ≤ 'F')

/-- Numeric value of a hexadecimal digit. -/
def hexVal (c : Char) : Nat :=
  if c.isDigit then c.toNat - 48
  else if 'a' ≤ c && c ≤ 'f' then c.toNat - 87
  else c.toNat - 55

/-- Percent-decoding with `+` decoded to space, as done by
`form_urlencoded::parse` (used by `serde_urlencoded::from_str`);
invalid escape sequences are left as-is. -/
def pctPlusDecode : List Char → List Char
  | [] => []
  | '+' :: rest => ' ' :: pctPlusDecode rest
  | '%' :: h :: l :: rest =>
      if isHexDigit h && isHexDigit l then
        Char.ofNat (16 * hexVal h + hexVal l) :: pctPlusDecode rest
      else '%' :: pctPlusDecode (h :: l :: rest)
  | c :: rest => c :: pctPlusDecode rest

/-- `serde_urlencoded::from_str` into `Vec<(String, String)>`:
split on `&`, skip empty pieces, split each piece at its first `=`
(missing value means empty value), percent-plus-decode both sides. -/
def serdeParseCl (s : List Char) : List (List Char × List Char) :=
  (splitOnC '&' s).filterMap fun piece =>
    if piece.isEmpty then none
    else
      let (k, v?) := splitFirstC '=' piece
      some (pctPlusDecode k, pctPlusDecode (v?.getD []))

/-- String-level `serde_urlencoded::from_str`. -/
def serdeParse (s : String) : List Pair :=
  (serdeParseCl s.data).map fun p => (String.mk p.1, String.mk p.2)

/-- `querystring::querify`: split on `&`, then take the first two
`=`-separated segments of each piece as key and value; pieces without
`=` are skipped and nothing is percent-decoded. -/
def querifyCl (s : List Char) : List (List Char × List Char) :=
  (splitOnC '&' s).filterMap fun piece =>
    match splitOnC '=' piece with
    | k :: v :: _ => some (k, v)
    | _ => none

/-- String-level `Plurk::parse_query` (`querystring::querify`). -/
def querifyPairs (s : String) : List Pair :=
  (querifyCl s.data).map fun p => (String.mk p.1, String.mk p.2)

/-! ## Key-ordered stable sort (Rust `Vec::sort_by(|a, b| a.0.cmp(&b.0))`) -/

/-- Byte-wise (code-point-wise) three-way comparison of character
lists, mirroring Rust `str::cmp` (UTF-8 byte order equals code-point
order). -/
def cmpChars : List Char → List Char → Ordering
  | [], [] => Ordering.eq
  | [], _ :: _ => Ordering.lt
  | _ :: _, [] => Ordering.gt
  | a :: as, b :: bs =>
    if a.toNat < b.toNat then Ordering.lt
    else if b.toNat < a.toNat then Ordering.gt
    else cmpChars as bs

/-- Stable insertion of a pair into a key-sorted list: skip entries
whose key is strictly smaller, insert before the first entry whose key
is greater or equal (so earlier-inserted entries with an equal key stay
in front — the stability guarantee of Rust `sort_by`). -/
def insertPair (x : Pair) : List Pair → List Pair
  | [] => [x]
  | y :: ys =>
    if cmpChars y.1.data x.1.data = Ordering.lt then y :: insertPair x ys
    else x :: y :: ys

/-- Stable sort of a pair list by key only, the extensional behavior of
Rust `query_poll.sort_by(|a, b| a.0.cmp(&b.0))`. -/
def sortPairs : List Pair → List Pair
  | [] => []
  | x :: xs => insertPair x (sortPairs xs)

/-- Byte-prefix test (`str::starts_with`). -/
def isPrefixOfCl : List Char → List Char → Bool
  | [], _ => true
  | _ :: _, [] => false
  | a :: as, b :: bs => a == b && isPrefixOfCl as bs

/-- Does a parameter name start with `oauth_`? -/
def startsOauth (s : String) : Bool :=
  isPrefixOfCl (String.data "oauth_") s.data

/-- Substring containment test. -/
def containsSub (pat : List Char) : List Char → Bool
  | [] => isPrefixOfCl pat []
  | c :: cs => isPrefixOfCl pat (c :: cs) || containsSub pat cs

/-! ## SHA-1 and HMAC-SHA1 (the `ring` crate's `HMAC_SHA1_FOR_LEGACY_USE_ONLY`) -/

/-- 32-bit left rotation on `Nat` values below `2^32`. -/
def rotl32 (n w : Nat) : Nat :=
  ((w <<< n) % 4294967296) ||| (w >>> (32 - n))

/-- Big-endian packing of bytes into 32-bit words (4 bytes per word). -/
def bytesToWords : List Nat → List Nat
  | a :: b :: c :: d :: rest => (((a * 256 + b) * 256 + c) * 256 + d) :: bytesToWords rest
  | _ => []

/-- Big-endian unpacking of one 32-bit word into 4 bytes. -/
def wordToBytes (w : Nat) : List Nat :=
  [w / 16777216 % 256, w / 65536 % 256, w / 256 % 256, w % 256]

/-- SHA-1 message-schedule extension: given the first 16 words in
reverse order, prepend `fuel` further words
`W[i] = rotl1 (W[i-3] xor W[i-8] xor W[i-14] xor W[i-16])`. -/
def sha1Extend (fuel : Nat) (ws : List Nat) : List Nat :=
  match fuel with
  | 0 => ws
  | fuel + 1 =>
      sha1Extend fuel
        (rotl32 1 (ws.getD 2 0 ^^^ ws.getD 7 0 ^^^ ws.getD 13 0 ^^^ ws.getD 15 0) :: ws)

/-- One SHA-1 round: state `(a, b, c, d, e)` updated with round index
`i` and schedule word `w`. -/
def sha1Round (st : Nat × Nat × Nat × Nat × Nat) (iw : Nat × Nat) : Nat × Nat × Nat × Nat × Nat :=
  let (a, b, c, d, e) := st
  let (i, w) := iw
  let f :=
    if i < 20 then (b &&& c) ||| ((4294967295 - b) &&& d)
    else if i < 40 then b ^^^ c ^^^ d
    else if i < 60 then (b &&& c) ||| (b &&& d) ||| (c &&& d)
    else b ^^^ c ^^^ d
  let k :=
    if i < 20 then 1518500249
    else if i < 40 then 1859775393
    else if i < 60 then 2400959708
    else 3395469782
  let temp := (rotl32 5 a + f + e + k + w) % 4294967296
  (temp, a, rotl32 30 b, c, d)

/-- SHA-1 compression of one 64-byte block into the running state. -/
def sha1Block (h : Nat × Nat × Nat × Nat × Nat) (block : List Nat) : Nat × Nat × Nat × Nat × Nat :=
  let w16 := bytesToWords block
  let ws := (sha1Extend 64 w16.reverse).reverse
  let (h0, h1, h2, h3, h4) := h
  let (a, b, c, d, e) := ((List.range 80).zip ws).foldl sha1Round (h0, h1, h2, h3, h4)
  ((h0 + a) % 4294967296, (h1 + b) % 4294967296, (h2 + c) % 4294967296,
   (h3 + d) % 4294967296, (h4 + e) % 4294967296)

/-- SHA-1 padding: `0x80`, zeros to 56 mod 64, 8-byte big-endian bit
length. -/
def sha1Pad (msg : List Nat) : List Nat :=
  let len := msg.length
  let zeros := (119 - len % 64) % 64
  let bits := len * 8
  msg ++ 128 :: List.replicate zeros 0 ++
    [bits / 72057594037927936 % 256, bits / 281474976710656 % 256,
     bits / 1099511627776 % 256, bits / 4294967296 % 256,
     bits / 16777216 % 256, bits / 65536 % 256, bits / 256 % 256, bits % 256]

/-- SHA-1 digest (20 bytes) of a byte list. -/
def sha1 (msg : List Nat) : List Nat :=
  let padded := sha1Pad msg
  let nblocks := padded.length / 64
  let (h0, h1, h2, h3, h4) :=
    (List.range nblocks).foldl
      (fun h i => sha1Block h ((padded.drop (64 * i)).take 64))
      (1732584193, 4023233417, 2562383102, 271733878, 3285377520)
  wordToBytes h0 ++ wordToBytes h1 ++ wordToBytes h2 ++ wordToBytes h3 ++ wordToBytes h4

/-- HMAC-SHA1 of a message under a key (keys here are always shorter
than the 64-byte block size, as in the signing code). -/
def hmacSha1 (key msg : List Nat) : List Nat :=
  let key := if 64 < key.length then sha1 key else key
  let kpad := key ++ List.replicate (64 - key.length) 0
  let ipad := kpad.map (fun b => b ^^^ 54)
  let opad := kpad.map (fun b => b ^^^ 92)
  sha1 (opad ++ sha1 (ipad ++ msg))

/-! ## Base64 (standard alphabet with padding, `base64::STANDARD`) -/

/-- Standard base64 alphabet lookup. -/
def b64Char (n : Nat) : Char :=
  (String.data "ABCDEFGHIJKLMNOPQRSTUVWXYZabcdefghijklmnopqrstuvwxyz0123456789+/").getD n 'A'

/-- Standard base64 encoding with `=` padding. -/
def base64Cl : List Nat → List Char
  | a :: b :: c :: rest =>
      b64Char (a / 4) :: b64Char ((a % 4) * 16 + b / 16) ::
      b64Char ((b % 16) * 4 + c / 64) :: b64Char (c % 64) :: base64Cl rest
  | [a, b] =>
      [b64Char (a / 4), b64Char ((a % 4) * 16 + b / 16), b64Char ((b % 16) * 4), '=']
  | [a] => [b64Char (a / 4), b64Char ((a % 4) * 16), '=', '=']
  | [] => []

/-- UTF-8 bytes of a string (the ASCII identity on all inputs used by
the signing code). -/
def strBytes (s : String) : List Nat :=
  s.data.flatMap utf8Bytes

/-- `hmac_sha1_sign` from the source: HMAC-SHA1 the base string with
the raw signing key, base64-encode the digest, then percent-escape the
result with `encode_www_form_urlencoded`. -/
def hmacSha1Sign (signUrl signKey : String) : String :=
  String.mk (wwwFormCl (base64Cl (hmacSha1 (strBytes signKey) (strBytes signUrl))))

/-! ## Credential store (`src/secret.rs`) -/

/-- One key/secret pair (`SecretPair`). -/
structure SecretPair where
  key : String
  secret : String
deriving DecidableEq

/-- Consumer credential with optional token (`Secret`). -/
structure Secret where
  consumer : SecretPair
  token : Option SecretPair
deriving DecidableEq

namespace Secret

/-- `Secret::new`: the token is kept only when both its key and its
secret are supplied. -/
def new (consumer_key consumer_secret : String)
    (token_key token_secret : Option String) : Secret :=
  { consumer := ⟨consumer_key, consumer_secret⟩,
    token :=
      match token_key, token_secret with
      | some key, some secret => some ⟨key, secret⟩
      | _, _ => none }

/-- `Secret::update_token` / `Secret::update_token_mut`: replace the
token by the given pair. -/
def update_token (s : Secret) (token_key token_secret : String) : Secret :=
  { s with token := some ⟨token_key, token_secret⟩ }

/-- `Secret::get_consumer_key`. -/
def get_consumer_key (s : Secret) : String := s.consumer.key

/-- `Secret::get_token_key`. -/
def get_token_key (s : Secret) : Option String :=
  match s.token with
  | some t => some t.key
  | none => none

/-- `Secret::get_sign_secret`: `consumer_secret & token_secret`, or
`consumer_secret &` when no token is held. -/
def get_sign_secret (s : Secret) : String :=
  match s.token with
  | some t => s.consumer.secret ++ "&" ++ t.secret
  | none => s.consumer.secret ++ "&"

end Secret

/-! ## Standalone signing engine (`src/oauth1.rs`) -/

/-- State of `oauth1::Oauth1`. -/
structure Oauth1 where
  oauth_consumer_key : String
  oauth_token : Option String
  oauth_signature_method : String
  oauth_signature : String
  oauth_timestamp : String
  oauth_nonce : String
  oauth_version : String
  oauth_callback : Option String
  oauth_verifier : Option String
  realm : Option String
  sign_key : String
deriving DecidableEq

namespace Oauth1

/-- `Oauth1::new`, with the effectful `gen_nonce` / `gen_timestamp`
results passed in explicitly (the tests override them the same way via
`test_set_nonce` / `test_set_timestamp`). -/
def new (secret : Secret) (nonce timestamp : String) : Oauth1 :=
  { oauth_consumer_key := secret.get_consumer_key
    oauth_token := secret.get_token_key
    oauth_signature_method := "HMAC-SHA1"
    oauth_signature := ""
    oauth_timestamp := timestamp
    oauth_nonce := nonce
    oauth_version := "1.0"
    oauth_callback := none
    oauth_verifier := none
    realm := none
    sign_key := secret.get_sign_secret }

/-- `Oauth1::test_set_callback`. -/
def test_set_callback (o : Oauth1) (s : String) : Oauth1 :=
  { o with oauth_callback := some s }

/-- `Oauth1::test_set_verifier`. -/
def test_set_verifier (o : Oauth1) (s : String) : Oauth1 :=
  { o with oauth_verifier := some s }

/-- `Oauth1::to_query_pair`: the generated OAuth parameters that are
present, in the source's emission order. -/
def to_query_pair (o : Oauth1) : List Pair :=
  (match o.oauth_callback with
   | some cb => [("oauth_callback", cb)]
   | none => []) ++
  [("oauth_consumer_key", o.oauth_consumer_key),
   ("oauth_nonce", o.oauth_nonce),
   ("oauth_signature_method", o.oauth_signature_method),
   ("oauth_timestamp", o.oauth_timestamp)] ++
  (match o.oauth_token with
   | some token => [("oauth_token", token)]
   | none => []) ++
  (match o.oauth_verifier with
   | some verifier => [("oauth_verifier", verifier)]
   | none => []) ++
  [("oauth_version", o.oauth_version)]

/-- `Oauth1::get_value_by_key`: first value bound to a key. -/
def get_value_by_key (key : String) : List Pair → Option String
  | [] => none
  | (k, v) :: rest => if k == key then some v else get_value_by_key key rest

/-- Signing parameter pool of `Oauth1::sign` before sorting: the parsed
caller query followed by the generated parameters. -/
def pool (o : Oauth1) (query : String) : List Pair :=
  serdeParse query ++ o.to_query_pair

/-- Sorted signing parameter set of `Oauth1::sign`. -/
def sortedPool (o : Oauth1) (query : String) : List Pair :=
  sortPairs (o.pool query)

/-- Serialized signing parameter string (`raw_query_part`) of
`Oauth1::sign`. -/
def rawQueryPart (o : Oauth1) (query : String) : String :=
  formSerialize (o.sortedPool query)

/-- Signature base string (`sign_base`) of `Oauth1::sign`. -/
def signBase (o : Oauth1) (method uri query : String) : String :=
  method ++ "&" ++ wwwFormEncode uri ++ "&" ++ wwwFormEncode (o.rawQueryPart query)

/-- `Oauth1::sign`: compute the signature over the sorted pool, then
store the signature, promote `oauth_callback` / `oauth_verifier` from
the pool and record the realm. -/
def sign (o : Oauth1) (method uri query : String) : Oauth1 :=
  { o with
    oauth_signature := hmacSha1Sign (o.signBase method uri query) o.sign_key
    oauth_callback := get_value_by_key "oauth_callback" (o.sortedPool query)
    oauth_verifier := get_value_by_key "oauth_verifier" (o.sortedPool query)
    realm := some uri }

/-- One rendered header segment `name="value", `. -/
def seg (name value : String) : List Char :=
  name.data ++ '=' :: '"' :: value.data ++ ['"', ',', ' ']

/-- Character stream built by `Oauth1::to_header` before the final two
`pop` calls. -/
def headerChars (o : Oauth1) : List Char :=
  String.data "OAuth " ++
  (match o.realm with
   | some r => seg "realm" r
   | none => []) ++
  (match o.oauth_callback with
   | some cb => seg "oauth_callback" cb
   | none => []) ++
  seg "oauth_consumer_key" o.oauth_consumer_key ++
  seg "oauth_nonce" o.oauth_nonce ++
  seg "oauth_signature" o.oauth_signature ++
  seg "oauth_signature_method" o.oauth_signature_method ++
  seg "oauth_timestamp" o.oauth_timestamp ++
  (match o.oauth_token with
   | some token => seg "oauth_token" token
   | none => []) ++
  (match o.oauth_verifier with
   | some verifier => seg "oauth_verifier" verifier
   | none => []) ++
  seg "oauth_version" o.oauth_version

/-- `Oauth1::to_header`: render all segments, then drop the trailing
`", "` (the two `pop` calls). -/
def to_header (o : Oauth1) : String :=
  String.mk (o.headerChars.dropLast.dropLast)

end Oauth1

/-! ## Request dispatcher and authorization flow (`src/plurk.rs`) -/

/-- Error type of `plurk::PlurkError`; wrapped foreign errors are
modelled by their message strings. -/
inductive PlurkError where
  | ReqwestError : String → PlurkError
  | APICallError : String → PlurkError
  | AuthError : String → PlurkError
  | SecretError : String → PlurkError
deriving DecidableEq

/-- `plurk::BASE_URL`. -/
def BASE_URL : String := "https://www.plurk.com"

/-- The `Plurk` client: a credential wrapper. -/
structure Plurk where
  secret : Secret
deriving DecidableEq

namespace Plurk

/-- `Plurk::new`. -/
def new (consumer_key consumer_secret : String)
    (token_key token_secret : Option String) : Plurk :=
  ⟨Secret.new consumer_key consumer_secret token_key token_secret⟩

/-- `Plurk::is_auth`: does a token key exist? -/
def is_auth (p : Plurk) : Bool :=
  p.secret.get_token_key.isSome

/-- `Plurk::prep_cmd`: prefix an API path with the fixed base URL. -/
def prep_cmd (api : String) : String := BASE_URL ++ api

/-- `Plurk::get_auth_url`: authorize URL when a token is held,
`AuthError` otherwise. -/
def get_auth_url (p : Plurk) : Except PlurkError String :=
  match p.secret.get_token_key with
  | some token_key => Except.ok (prep_cmd "/OAuth/authorize" ++ "?oauth_token=" ++ token_key)
  | none => Except.error (PlurkError.AuthError "Missing requested token key")

/-- `Plurk::to_oauth`: credential-derived signing parameters. -/
def to_oauth (p : Plurk) : List Pair :=
  (if p.secret.get_consumer_key.isEmpty then []
   else [("oauth_consumer_key", p.secret.get_consumer_key)]) ++
  (match p.secret.get_token_key with
   | some token_key => [("oauth_token", token_key)]
   | none => [])

/-- Generated parameters of the dispatcher-local `Oauth1::new` in
`plurk.rs`, with nonce/timestamp passed in for the effectful
generators. -/
def oauthBase (nonce timestamp : String) : List Pair :=
  [("oauth_nonce", nonce), ("oauth_timestamp", timestamp),
   ("oauth_signature_method", "HMAC-SHA1"), ("oauth_version", "1.0")]

/-- Signing pool of `Plurk::sign` before sorting: generated parameters,
then credential parameters, then the parsed request body (when a body
is present). -/
def pool (p : Plurk) (nonce timestamp : String) (body : Option String) : List Pair :=
  oauthBase nonce timestamp ++ p.to_oauth ++
  (match body with
   | some b => querifyPairs b
   | none => [])

/-- Transmitted body rewritten by `Plurk::sign`: the parsed raw body
with all `oauth_*`-named entries removed, re-serialized. -/
def newBody (body : String) : String :=
  formSerialize ((querifyPairs body).filter fun q => !startsOauth q.1)

/-- Sorted signing parameter set of `Plurk::sign`. -/
def sortedPool (p : Plurk) (nonce timestamp : String) (body : Option String) : List Pair :=
  sortPairs (p.pool nonce timestamp body)

/-- Serialized signing parameter string (`raw_query_part`) of
`Plurk::sign`. -/
def rawQueryPart (p : Plurk) (nonce timestamp : String) (body : Option String) : String :=
  formSerialize (p.sortedPool nonce timestamp body)

/-- Signature base string (`sign_url`) of `Plurk::sign`; `baseUrl` is
the request URL up to the end of its path. -/
def signBase (p : Plurk) (method baseUrl nonce timestamp : String)
    (body : Option String) : String :=
  method ++ "&" ++ wwwFormEncode baseUrl ++ "&" ++
    wwwFormEncode (p.rawQueryPart nonce timestamp body)

/-- The `oauth_signature` computed by `Plurk::sign`. -/
def signature (p : Plurk) (method baseUrl nonce timestamp : String)
    (body : Option String) : String :=
  hmacSha1Sign (p.signBase method baseUrl nonce timestamp body) p.secret.get_sign_secret

/-- Header parameter list of `Plurk::sign`: the sorted pool with the
signature appended by `set_sign`, filtered to `oauth_*` names by
`to_header`. -/
def headerParams (p : Plurk) (method baseUrl nonce timestamp : String)
    (body : Option String) : List Pair :=
  (p.sortedPool nonce timestamp body ++
    [("oauth_signature", p.signature method baseUrl nonce timestamp body)]).filter
    fun q => startsOauth q.1

/-- Authorization header built by the `to_header` in `plurk.rs`:
`OAuth` followed by ` name="value",` segments with the final comma
popped. -/
def header (p : Plurk) (method baseUrl nonce timestamp : String)
    (body : Option String) : String :=
  String.mk (String.data "OAuth" ++
    ((p.headerParams method baseUrl nonce timestamp body).flatMap
      fun q => ' ' :: q.1.data ++ '=' :: '"' :: q.2.data ++ ['"', ',']).dropLast)

/-- `Plurk::parse_oauth_token`: parse the response body with `querify`,
collect into a hash map (later duplicates win), and require both
`oauth_token` and `oauth_token_secret`. -/
def lookupLast (key : String) : List Pair → Option String
  | [] => none
  | (k, v) :: rest =>
    match lookupLast key rest with
    | some r => some r
    | none => if k == key then some v else none

/-- Token extraction of `Plurk::parse_oauth_token`. -/
def parse_oauth_token (raw : String) : Option (String × String) :=
  let qs := querifyPairs raw
  match lookupLast "oauth_token" qs, lookupLast "oauth_token_secret" qs with
  | some key, some secret => some (key, secret)
  | _, _ => none

/-- Response handling tail of `Plurk::request_auth`, given the
response text of a successful round-trip: update the token only when
`parse_oauth_token` succeeds, and always return `Ok(())`. -/
def request_auth_update (p : Plurk) (resp : String) : Except PlurkError Unit × Plurk :=
  match parse_oauth_token resp with
  | some (key, secret) => (Except.ok (), ⟨p.secret.update_token key secret⟩)
  | none => (Except.ok (), p)

/-- Response handling tail of `Plurk::verify_auth`, identical in the
source to that of `request_auth`. -/
def verify_auth_update (p : Plurk) (resp : String) : Except PlurkError Unit × Plurk :=
  match parse_oauth_token resp with
  | some (key, secret) => (Except.ok (), ⟨p.secret.update_token key secret⟩)
  | none => (Except.ok (), p)

end Plurk

/-! ## Header rendering, spec-side and source-side views (claim C4) -/

/-- Present OAuth parameters emitted by `oauth1::Oauth1::to_header`, in
the source's emission order. -/
def Oauth1.presentParams (o : Oauth1) : List Pair :=
  (match o.oauth_callback with
   | some cb => [("oauth_callback", cb)]
   | none => []) ++
  [("oauth_consumer_key", o.oauth_consumer_key),
   ("oauth_nonce", o.oauth_nonce),
   ("oauth_signature", o.oauth_signature),
   ("oauth_signature_method", o.oauth_signature_method),
   ("oauth_timestamp", o.oauth_timestamp)] ++
  (match o.oauth_token with
   | some token => [("oauth_token", token)]
   | none => []) ++
  (match o.oauth_verifier with
   | some verifier => [("oauth_verifier", verifier)]
   | none => []) ++
  [("oauth_version", o.oauth_version)]

/-- Modelled from the spec (§4.1 step 11): parameters rendered as
`name="value"`, comma-space separated, with no trailing separator. -/
def specHeaderTail : List Pair → String
  | [] => ""
  | [q] => q.1 ++ "=\"" ++ q.2 ++ "\""
  | q :: q2 :: rest => q.1 ++ "=\"" ++ q.2 ++ "\", " ++ specHeaderTail (q2 :: rest)

/-- Concatenated `name="value", ` segments of a parameter list. -/
def segsOf : List Pair → List Char
  | [] => []
  | q :: rest => Oauth1.seg q.1 q.2 ++ segsOf rest

/-! ## Lemmas about the key-ordered stable sort -/

/-- Key order used by the signing sort: the key comparison does not say
`gt`. -/
def keyLe (a b : Pair) : Prop := cmpChars a.1.data b.1.data ≠ Ordering.gt

theorem cmpChars_refl (l : List Char) : cmpChars l l = Ordering.eq := by
  induction l with
  | nil => rfl
  | cons c cs ih => simp [cmpChars, ih]

theorem cmpChars_swap (a b : List Char) : cmpChars a b = (cmpChars b a).swap := by
  induction a generalizing b with
  | nil => cases b <;> rfl
  | cons c cs ih =>
    cases b with
    | nil => rfl
    | cons d ds =>
      simp only [cmpChars]
      rcases Nat.lt_trichotomy c.toNat d.toNat with h | h | h
      · simp [h, Nat.lt_asymm h, Ordering.swap]
      · simp [h, ih]
      · simp [h, Nat.lt_asymm h, Ordering.swap]

theorem keyLe_of_not_lt {x y : Pair}
    (h : ¬ cmpChars y.1.data x.1.data = Ordering.lt) : keyLe x y := by
  intro hgt
  rw [cmpChars_swap] at hgt
  cases hyx : cmpChars y.1.data x.1.data <;> rw [hyx] at hgt <;> simp_all [Ordering.swap]

theorem keyLe_of_lt {x y : Pair}
    (h : cmpChars x.1.data y.1.data = Ordering.lt) : keyLe x y := by
  intro hgt
  rw [h] at hgt
  exact absurd hgt (by simp)

theorem chain_insertPair (x : Pair) {l : List Pair}
    (h : List.Chain' keyLe l) : List.Chain' keyLe (insertPair x l) := by
  induction l with
  | nil => simp [insertPair]
  | cons y ys ih =>
    simp only [insertPair]
    by_cases hc : cmpChars y.1.data x.1.data = Ordering.lt
    · rw [if_pos hc]
      have hyx : keyLe y x := by
        intro hgt
        rw [hc] at hgt
        exact absurd hgt (by simp)
      refine List.chain'_cons'.mpr ⟨?_, ih h.tail⟩
      intro z hz
      cases ys with
      | nil =>
        simp [insertPair] at hz
        subst hz
        exact hyx
      | cons w ws =>
        simp only [insertPair] at hz
        by_cases hw : cmpChars w.1.data x.1.data = Ordering.lt
        · rw [if_pos hw] at hz
          simp at hz
          subst hz
          exact (List.chain'_cons.mp h).1
        · rw [if_neg hw] at hz
          simp at hz
          subst hz
          exact hyx
    · rw [if_neg hc]
      refine List.chain'_cons.mpr ⟨?_, h⟩
      exact keyLe_of_not_lt hc

theorem sorted_sortPairs (l : List Pair) : List.Chain' keyLe (sortPairs l) := by
  induction l with
  | nil => simp [sortPairs]
  | cons x xs ih => exact chain_insertPair x ih

theorem filter_insertPair (k : String) (x : Pair) (l : List Pair) :
    (insertPair x l).filter (fun p => p.1 == k) =
      ((x :: l).filter (fun p => p.1 == k)) := by
  induction l with
  | nil => rfl
  | cons y ys ih =>
    simp only [insertPair]
    by_cases hc : cmpChars y.1.data x.1.data = Ordering.lt
    · rw [if_pos hc]
      by_cases hy : (y.1 == k) = true
      · by_cases hx : (x.1 == k) = true
        · exfalso
          have ey : y.1 = k := eq_of_beq hy
          have ex : x.1 = k := eq_of_beq hx
          have he : cmpChars y.1.data x.1.data = Ordering.eq := by
            rw [ey, ex]; exact cmpChars_refl _
          rw [he] at hc
          exact absurd hc (by simp)
        · simp [List.filter_cons, hy, hx, ih]
      · simp [List.filter_cons, hy, ih]
    · rw [if_neg hc]

theorem filter_sortPairs (k : String) (l : List Pair) :
    (sortPairs l).filter (fun p => p.1 == k) = l.filter (fun p => p.1 == k) := by
  induction l with
  | nil => rfl
  | cons x xs ih =>
    show (insertPair x (sortPairs xs)).filter _ = _
    rw [filter_insertPair]
    by_cases hx : (x.1 == k) = true <;> simp [List.filter_cons, hx, ih]

theorem mem_insertPair {a x : Pair} {l : List Pair} :
    a ∈ insertPair x l ↔ a = x ∨ a ∈ l := by
  induction l with
  | nil => simp [insertPair]
  | cons y ys ih =>
    simp only [insertPair]
    by_cases hc : cmpChars y.1.data x.1.data = Ordering.lt
    · rw [if_pos hc]
      simp [ih]
      tauto
    · rw [if_neg hc]
      simp

theorem mem_sortPairs {a : Pair} {l : List Pair} :
    a ∈ sortPairs l ↔ a ∈ l := by
  induction l with
  | nil => simp [sortPairs]
  | cons x xs ih =>
    show a ∈ insertPair x (sortPairs xs) ↔ _
    rw [mem_insertPair]
    simp [ih]

/-! ## Lemmas about header rendering -/

theorem dropLast_two (xs : List Char) (a b : Char) :
    (xs ++ [a, b]).dropLast.dropLast = xs := by
  have h1 : xs ++ [a, b] = (xs ++ [a]) ++ [b] := by simp
  rw [h1, List.dropLast_concat, List.dropLast_concat]

theorem seg_length (n v : String) :
    (Oauth1.seg n v).length = n.data.length + v.data.length + 5 := by
  simp [Oauth1.seg]
  omega

theorem segsOf_cons_length (q : Pair) (l : List Pair) :
    5 ≤ (segsOf (q :: l)).length := by
  show 5 ≤ (Oauth1.seg q.1 q.2 ++ segsOf l).length
  rw [List.length_append, seg_length]
  omega

theorem headerChars_split (o : Oauth1) (r : String) (h : o.realm = some r) :
    o.headerChars = String.data "OAuth " ++ Oauth1.seg "realm" r ++ segsOf o.presentParams := by
  cases hcb : o.oauth_callback <;> cases ht : o.oauth_token <;> cases hv : o.oauth_verifier <;>
    simp [Oauth1.headerChars, Oauth1.presentParams, segsOf, h, hcb, ht, hv, List.append_assoc]

theorem segsOf_dropLast (q : Pair) (l : List Pair) :
    (segsOf (q :: l)).dropLast.dropLast = (specHeaderTail (q :: l)).data := by
  induction l generalizing q with
  | nil =>
    show (Oauth1.seg q.1 q.2 ++ []).dropLast.dropLast = _
    rw [List.append_nil]
    have hseg : Oauth1.seg q.1 q.2 =
        (q.1.data ++ '=' :: '"' :: q.2.data ++ ['"']) ++ [',', ' '] := by
      simp [Oauth1.seg]
    rw [hseg, dropLast_two]
    have hq : ("=\"" : String).data = ['=', '"'] := by decide
    have hc : ("\"" : String).data = ['"'] := by decide
    simp [specHeaderTail, String.data_append, hq, hc]
  | cons q2 l ih =>
    show (Oauth1.seg q.1 q.2 ++ segsOf (q2 :: l)).dropLast.dropLast = _
    have hne : segsOf (q2 :: l) ≠ [] := by
      intro hnil
      have := segsOf_cons_length q2 l
      rw [hnil] at this
      simp at this
    have hne2 : (segsOf (q2 :: l)).dropLast ≠ [] := by
      intro hnil
      have h5 := segsOf_cons_length q2 l
      have : (segsOf (q2 :: l)).dropLast.length = (segsOf (q2 :: l)).length - 1 :=
        List.length_dropLast _
      rw [hnil] at this
      simp at this
      omega
    rw [List.dropLast_append_of_ne_nil _ hne, List.dropLast_append_of_ne_nil _ hne2, ih]
    show _ = (specHeaderTail (q :: q2 :: l)).data
    have hq : ("=\"" : String).data = ['=', '"'] := by decide
    have hc : ("\", " : String).data = ['"', ',', ' '] := by decide
    simp [specHeaderTail, Oauth1.seg, String.data_append, hq, hc]

theorem to_header_realm (o : Oauth1) (r : String) (h : o.realm = some r) :
    o.to_header = "OAuth realm=\"" ++ r ++ "\", " ++ specHeaderTail o.presentParams := by
  have hpp : ∃ q l, o.presentParams = q :: l := by
    cases hcb : o.oauth_callback <;>
      simp [Oauth1.presentParams, hcb]
  obtain ⟨q, l, hql⟩ := hpp
  have hne : segsOf (q :: l) ≠ [] := by
    intro hnil
    have := segsOf_cons_length q l
    rw [hnil] at this
    simp at this
  have hne2 : (segsOf (q :: l)).dropLast ≠ [] := by
    intro hnil
    have h5 := segsOf_cons_length q l
    have : (segsOf (q :: l)).dropLast.length = (segsOf (q :: l)).length - 1 :=
      List.length_dropLast _
    rw [hnil] at this
    simp at this
    omega
  show String.mk o.headerChars.dropLast.dropLast = _
  rw [headerChars_split o r h, hql,
      List.dropLast_append_of_ne_nil _ hne, List.dropLast_append_of_ne_nil _ hne2,
      segsOf_dropLast]
  apply String.ext
  have hC1 : ("OAuth realm=\"" : String).data =
      String.data "OAuth " ++ (String.data "realm" ++ ['=', '"']) := by decide
  have hC2 : ("\", " : String).data = ['"', ',', ' '] := by decide
  show (String.data "OAuth " ++ Oauth1.seg "realm" r) ++ (specHeaderTail (q :: l)).data = _
  simp [String.data_append, Oauth1.seg, hC1, hC2]

/-! ## Round-trip lemmas for the body rewrite (claim C6) -/

theorem mk_data (s : String) : String.mk s.data = s := by
  cases s
  rfl

theorem byteSerializeChar_keep {c : Char} (h : isKeepChar c = true) :
    byteSerializeChar c = [c] := by
  have hs : (c == ' ') = false := by
    by_cases he : c = ' '
    · subst he
      exact absurd h (by decide)
    · simp [he]
  simp [byteSerializeChar, hs, h]

theorem byteSerializeCl_keep (l : List Char) (h : ∀ c ∈ l, isKeepChar c = true) :
    byteSerializeCl l = l := by
  induction l with
  | nil => rfl
  | cons c cs ih =>
    show byteSerializeChar c ++ byteSerializeCl cs = c :: cs
    rw [byteSerializeChar_keep (h c (by simp)), ih (fun d hd => h d (by simp [hd]))]
    rfl

theorem keep_beq_false {c d : Char} (hd : isKeepChar d = false)
    (hc : isKeepChar c = true) : (c == d) = false := by
  by_cases he : c = d
  · subst he
    rw [hc] at hd
    exact absurd hd (by simp)
  · simp [he]

theorem splitOnC_ne_nil (sep : Char) (l : List Char) : splitOnC sep l ≠ [] := by
  cases l with
  | nil => simp [splitOnC]
  | cons c cs =>
    simp only [splitOnC]
    rcases hs : splitOnC sep cs with _ | ⟨seg, segs⟩
    · simp
    · by_cases hc : (c == sep) = true <;> simp [hc]

theorem splitOnC_sepFree (sep : Char) (l : List Char)
    (h : ∀ c ∈ l, (c == sep) = false) : splitOnC sep l = [l] := by
  induction l with
  | nil => rfl
  | cons c cs ih =>
    simp only [splitOnC]
    rw [ih (fun d hd => h d (by simp [hd]))]
    simp [h c (by simp)]

theorem splitOnC_append (sep : Char) (l rest : List Char)
    (h : ∀ c ∈ l, (c == sep) = false) :
    splitOnC sep (l ++ sep :: rest) = l :: splitOnC sep rest := by
  induction l with
  | nil =>
    show splitOnC sep (sep :: rest) = [] :: splitOnC sep rest
    simp only [splitOnC]
    rcases hs : splitOnC sep rest with _ | ⟨seg, segs⟩
    · exact absurd hs (splitOnC_ne_nil sep rest)
    · simp
  | cons c cs ih =>
    show splitOnC sep (c :: (cs ++ sep :: rest)) = _
    simp only [splitOnC]
    rw [ih (fun d hd => h d (by simp [hd]))]
    simp [h c (by simp)]

theorem querify_serialize (pairs : List (List Char × List Char))
    (h : ∀ p ∈ pairs, (∀ c ∈ p.1, isKeepChar c = true) ∧ (∀ c ∈ p.2, isKeepChar c = true)) :
    querifyCl (formSerializeCl pairs) = pairs := by
  induction pairs with
  | nil => rfl
  | cons p ps ih =>
    obtain ⟨k, v⟩ := p
    obtain ⟨hk, hv⟩ := h (k, v) (by simp)
    have hkAmp : ∀ c ∈ k ++ '=' :: v, (c == '&') = false := by
      intro c hc
      rcases List.mem_append.mp hc with hck | hcv
      · exact keep_beq_false (by decide) (hk c hck)
      · rcases List.mem_cons.mp hcv with he | hcv2
        · subst he
          decide
        · exact keep_beq_false (by decide) (hv c hcv2)
    have hsplitEq : splitOnC '=' (k ++ '=' :: v) = [k, v] := by
      rw [splitOnC_append '=' k v (fun c hc => keep_beq_false (by decide) (hk c hc)),
          splitOnC_sepFree '=' v (fun c hc => keep_beq_false (by decide) (hv c hc))]
    cases ps with
    | nil =>
      show querifyCl (byteSerializeCl k ++ '=' :: byteSerializeCl v) = [(k, v)]
      rw [byteSerializeCl_keep k hk, byteSerializeCl_keep v hv]
      unfold querifyCl
      rw [splitOnC_sepFree '&' (k ++ '=' :: v) hkAmp]
      simp [hsplitEq]
    | cons p2 ps2 =>
      show querifyCl
        (byteSerializeCl k ++ '=' :: byteSerializeCl v ++ '&' :: formSerializeCl (p2 :: ps2)) =
          (k, v) :: p2 :: ps2
      rw [byteSerializeCl_keep k hk, byteSerializeCl_keep v hv]
      unfold querifyCl
      have hshape : k ++ '=' :: v ++ '&' :: formSerializeCl (p2 :: ps2) =
          (k ++ '=' :: v) ++ '&' :: formSerializeCl (p2 :: ps2) := by
        simp
      rw [hshape, splitOnC_append '&' (k ++ '=' :: v) _ hkAmp]
      simp only [List.filterMap_cons, hsplitEq]
      have htail : (splitOnC '&' (formSerializeCl (p2 :: ps2))).filterMap
          (fun piece =>
            match splitOnC '=' piece with
            | k :: v :: _ => some (k, v)
            | _ => none) = querifyCl (formSerializeCl (p2 :: ps2)) := rfl
      rw [htail, ih (fun q hq => h q (by simp [hq]))]

theorem querifyPairs_formSerialize (pairs : List Pair)
    (h : ∀ q ∈ pairs, (∀ c ∈ q.1.data, isKeepChar c = true) ∧
      (∀ c ∈ q.2.data, isKeepChar c = true)) :
    querifyPairs (formSerialize pairs) = pairs := by
  unfold querifyPairs formSerialize
  have hm : ∀ p ∈ pairs.map (fun q : Pair => (q.1.data, q.2.data)),
      (∀ c ∈ p.1, isKeepChar c = true) ∧ (∀ c ∈ p.2, isKeepChar c = true) := by
    intro p hp
    obtain ⟨q, hq, rfl⟩ := List.mem_map.mp hp
    exact h q hq
  show ((querifyCl (String.mk _).data).map fun p => (String.mk p.1, String.mk p.2)) = pairs
  rw [show (String.mk (formSerializeCl (pairs.map fun q : Pair => (q.1.data, q.2.data)))).data =
      formSerializeCl (pairs.map fun q : Pair => (q.1.data, q.2.data)) from rfl]
  rw [querify_serialize _ hm, List.map_map]
  have hid : ∀ q : Pair,
      ((fun p : List Char × List Char => (String.mk p.1, String.mk p.2)) ∘
        fun q : Pair => (q.1.data, q.2.data)) q = q := by
    intro q
    obtain ⟨a, b⟩ := q
    simp [Function.comp, mk_data]
  calc pairs.map _ = pairs.map id := List.map_congr_left (fun q _ => hid q)
    _ = pairs := List.map_id pairs

/-! ## Lemmas about token lookup (claim C7) -/

theorem lookupLast_eq_none {k : String} {l : List Pair}
    (h : ∀ v, (k, v) ∉ l) : Plurk.lookupLast k l = none := by
  induction l with
  | nil => rfl
  | cons p ps ih =>
    obtain ⟨k1, v1⟩ := p
    show (match Plurk.lookupLast k ps with
      | some r => some r
      | none => if k1 == k then some v1 else none) = none
    rw [ih (fun v hv => h v (by simp [hv]))]
    have hne : (k1 == k) = false := by
      by_cases he : k1 = k
      · subst he
        exact absurd (by simp) (h v1)
      · simp [he]
    simp [hne]

/-! ## Claim theorems -/

/-- Claim C7: for `request_auth` and `verify_auth`, whenever the HTTP
round-trip succeeds but the response body is not a form-encoded string
containing both an `oauth_token` field and an `oauth_token_secret`
field, the call returns success and the credential's token state is
left unchanged. -/
theorem handshake_swallows_bad_response (p : Plurk) (resp : String)
    (h : (∀ v, ("oauth_token", v) ∉ querifyPairs resp) ∨
      (∀ v, ("oauth_token_secret", v) ∉ querifyPairs resp)) :
    p.request_auth_update resp = (Except.ok (), p) ∧
    p.verify_auth_update resp = (Except.ok (), p) := by
  have hnone : Plurk.parse_oauth_token resp = none := by
    show (match Plurk.lookupLast "oauth_token" (querifyPairs resp),
        Plurk.lookupLast "oauth_token_secret" (querifyPairs resp) with
      | some key, some secret => some (key, secret)
      | _, _ => none) = none
    rcases h with h1 | h2
    · rw [lookupLast_eq_none h1]
    · rw [lookupLast_eq_none h2]
      cases Plurk.lookupLast "oauth_token" (querifyPairs resp) <;> rfl
  constructor <;> simp [Plurk.request_auth_update, Plurk.verify_auth_update, hnone]

/-- Witness for C7: the response text `foobar` has no token fields, and
`request_auth` leaves a fresh credential untouched while reporting
success. -/
theorem handshake_swallows_bad_response_witness :
    (∀ v, ("oauth_token", v) ∉ querifyPairs "foobar") ∧
    (Plurk.new "c1" "c2" none none).request_auth_update "foobar" =
      (Except.ok (), Plurk.new "c1" "c2" none none) := by
  have hh : ∀ v, ("oauth_token", v) ∉ querifyPairs "foobar" := by
    intro v hv
    rw [show querifyPairs "foobar" = [] from by decide] at hv
    exact absurd hv (List.not_mem_nil _)
  exact ⟨hh, (handshake_swallows_bad_response (Plurk.new "c1" "c2" none none) "foobar"
    (Or.inl hh)).1⟩

/-- Claim C8: the HMAC-SHA1 signing key equals
`consumer_secret ++ "&" ++ (token secret or "")` with neither secret
percent-encoded, and the bytes of this raw string are used directly as
the HMAC key (byte 38 is `&`; a consumer secret `c 2` keeps its raw
space). -/
theorem signing_key_raw_concat :
    (∀ s : Secret, s.get_sign_secret =
      s.consumer.secret ++ "&" ++
        (match s.token with | some t => t.secret | none => "")) ∧
    (∀ (s : Secret) (base : String),
      hmacSha1Sign base s.get_sign_secret =
        String.mk (wwwFormCl (base64Cl (hmacSha1
          (strBytes s.consumer.secret ++ 38 ::
            (match s.token with | some t => strBytes t.secret | none => []))
          (strBytes base))))) ∧
    Secret.get_sign_secret (Secret.new "k" "c 2" (some "t") (some "t 4")) = "c 2&t 4" := by
  have hsplit : ∀ a b : String, strBytes (a ++ b) = strBytes a ++ strBytes b := by
    intro a b
    simp [strBytes, String.data_append, List.flatMap_append]
  refine ⟨?_, ?_, by decide⟩
  · intro s
    cases ht : s.token with
    | none => simp [Secret.get_sign_secret, ht]
    | some t => simp [Secret.get_sign_secret, ht]
  · intro s base
    cases ht : s.token with
    | none =>
      simp [Secret.get_sign_secret, ht, hmacSha1Sign, hsplit,
        show strBytes "&" = [38] from by decide]
    | some t =>
      simp [Secret.get_sign_secret, ht, hmacSha1Sign, hsplit,
        show strBytes "&" = [38] from by decide]

/-- Claim C9: `get_auth_url` returns
`base_url ++ "/OAuth/authorize?oauth_token=" ++ token_key` whenever the
credential holds a token and fails with an `AuthError` when none is
present; the model is a pure function of the credential, which it never
modifies. -/
theorem get_auth_url_spec (p : Plurk) :
    (∀ key, p.secret.get_token_key = some key →
      p.get_auth_url = Except.ok (BASE_URL ++ "/OAuth/authorize?oauth_token=" ++ key)) ∧
    (p.secret.get_token_key = none →
      p.get_auth_url = Except.error (PlurkError.AuthError "Missing requested token key")) := by
  constructor
  · intro key hk
    unfold Plurk.get_auth_url
    rw [hk]
    rw [show Plurk.prep_cmd "/OAuth/authorize" ++ "?oauth_token=" =
      BASE_URL ++ "/OAuth/authorize?oauth_token=" from by decide]
  · intro hk
    unfold Plurk.get_auth_url
    rw [hk]

/-- Witness for C9: both branches at concrete credentials. -/
theorem get_auth_url_spec_witness :
    (Plurk.new "ck" "cs" (some "tk") (some "ts")).get_auth_url =
      Except.ok (BASE_URL ++ "/OAuth/authorize?oauth_token=" ++ "tk") ∧
    (Plurk.new "ck" "cs" none none).get_auth_url =
      Except.error (PlurkError.AuthError "Missing requested token key") :=
  ⟨(get_auth_url_spec (Plurk.new "ck" "cs" (some "tk") (some "ts"))).1 "tk" rfl,
   (get_auth_url_spec (Plurk.new "ck" "cs" none none)).2 rfl⟩

/-- Claim C10: a credential's token is all-or-nothing: every
constructor and operation yields a token with both key and secret or
with neither, and supplying exactly one of token key/secret behaves
exactly like supplying none (`is_auth` false, no token key, signing
key `consumer_secret ++ "&"`). -/
theorem token_all_or_nothing :
    ∀ ck cs t : String,
      (Secret.new ck cs (some t) none).token = none ∧
      (Secret.new ck cs none (some t)).token = none ∧
      Secret.new ck cs (some t) none = Secret.new ck cs none none ∧
      Secret.new ck cs none (some t) = Secret.new ck cs none none ∧
      (Plurk.new ck cs (some t) none).is_auth = false ∧
      (Plurk.new ck cs none (some t)).is_auth = false ∧
      (Secret.new ck cs (some t) none).get_token_key = none ∧
      (Secret.new ck cs (some t) none).get_sign_secret = cs ++ "&" ∧
      (Secret.new ck cs none (some t)).get_sign_secret = cs ++ "&" ∧
      (∀ tk ts : Option String,
        ((Secret.new ck cs tk ts).token = none ∧ (tk = none ∨ ts = none)) ∨
        (∃ k s, tk = some k ∧ ts = some s ∧
          (Secret.new ck cs tk ts).token = some ⟨k, s⟩)) ∧
      (∀ (s : Secret) (k sec : String), (s.update_token k sec).token = some ⟨k, sec⟩) := by
  intro ck cs t
  refine ⟨rfl, rfl, rfl, rfl, rfl, rfl, rfl, rfl, rfl, ?_, fun s k sec => rfl⟩
  intro tk ts
  cases tk with
  | none => exact Or.inl ⟨rfl, Or.inl rfl⟩
  | some k =>
    cases ts with
    | none => exact Or.inl ⟨rfl, Or.inr rfl⟩
    | some s2 => exact Or.inr ⟨k, s2, rfl, rfl, rfl⟩

/-- Claim C3 (amended): the full signing parameter set is sorted by key
in byte-wise ascending order, and entries with equal keys keep their
original insertion order (the sort is stable and never compares
values). -/
theorem sortPairs_key_sorted_stable :
    ∀ l : List Pair,
      List.Chain' keyLe (sortPairs l) ∧
      ∀ k : String, (sortPairs l).filter (fun p => p.1 == k) =
        l.filter (fun p => p.1 == k) :=
  fun l => ⟨sorted_sortPairs l, fun k => filter_sortPairs k l⟩

/-- Counterexample for C3 as stated: for the signing call with body
`b=2&b=1`, the two equal-key entries stay in insertion order in the
sorted pool and in the serialized parameter string, with the byte-wise
larger value `2` preceding `1`. -/
theorem sort_ties_not_value_ordered_cex :
    (Plurk.new "c1" "c2" (some "t1") (some "t2")).sortedPool "N" "T" (some "b=2&b=1") =
      [("b", "2"), ("b", "1"), ("oauth_consumer_key", "c1"), ("oauth_nonce", "N"),
       ("oauth_signature_method", "HMAC-SHA1"), ("oauth_timestamp", "T"),
       ("oauth_token", "t1"), ("oauth_version", "1.0")] ∧
    (Plurk.new "c1" "c2" (some "t1") (some "t2")).rawQueryPart "N" "T" (some "b=2&b=1") =
      "b=2&b=1&oauth_consumer_key=c1&oauth_nonce=N&oauth_signature_method=HMAC-SHA1&oauth_timestamp=T&oauth_token=t1&oauth_version=1.0" ∧
    cmpChars (String.data "1") (String.data "2") = Ordering.lt := by decide

/-- Claim C2 (amended): a caller-supplied `oauth_*` parameter does not
replace the generated one — every caller-parsed pair and every
generated pair is a member of the final sorted signing set. -/
theorem oauth_params_all_survive (p : Plurk) (nonce ts b : String) (q : Pair)
    (hq : q ∈ querifyPairs b) :
    q ∈ p.sortedPool nonce ts (some b) ∧
    ∀ g ∈ Plurk.oauthBase nonce ts ++ p.to_oauth,
      g ∈ p.sortedPool nonce ts (some b) := by
  constructor
  · show q ∈ sortPairs (p.pool nonce ts (some b))
    rw [mem_sortPairs]
    simp [Plurk.pool, hq]
  · intro g hg
    show g ∈ sortPairs (p.pool nonce ts (some b))
    rw [mem_sortPairs]
    rcases List.mem_append.mp hg with h1 | h2
    · simp [Plurk.pool, h1]
    · simp [Plurk.pool, h2]

/-- Witness for C2 (amended): the caller-supplied `oauth_nonce`
survives into the sorted pool alongside the generated one. -/
theorem oauth_params_all_survive_witness :
    ("oauth_nonce", "zzz") ∈ querifyPairs "a=1&oauth_nonce=zzz" ∧
    ("oauth_nonce", "zzz") ∈ (Plurk.new "c1" "c2" (some "t1") (some "t2")).sortedPool
      "N" "T" (some "a=1&oauth_nonce=zzz") :=
  ⟨by decide, (oauth_params_all_survive (Plurk.new "c1" "c2" (some "t1") (some "t2"))
    "N" "T" "a=1&oauth_nonce=zzz" ("oauth_nonce", "zzz") (by decide)).1⟩

/-- Counterexample for C2 as stated: when the body supplies
`oauth_nonce=zzz` next to the generated nonce, two `oauth_nonce`
entries survive into the sorted pool, the serialized signing string and
the header parameter list — not exactly one. -/
theorem oauth_param_not_replaced_cex :
    ((Plurk.new "c1" "c2" (some "t1") (some "t2")).sortedPool "aabbcc123" "1191242096"
        (some "a=1&oauth_nonce=zzz")).filter (fun q => q.1 == "oauth_nonce") =
      [("oauth_nonce", "aabbcc123"), ("oauth_nonce", "zzz")] ∧
    (Plurk.new "c1" "c2" (some "t1") (some "t2")).rawQueryPart "aabbcc123" "1191242096"
        (some "a=1&oauth_nonce=zzz") =
      "a=1&oauth_consumer_key=c1&oauth_nonce=aabbcc123&oauth_nonce=zzz&oauth_signature_method=HMAC-SHA1&oauth_timestamp=1191242096&oauth_token=t1&oauth_version=1.0" ∧
    ((Plurk.new "c1" "c2" (some "t1") (some "t2")).headerParams "POST"
        "https://www.plurk.com/APP/foo" "aabbcc123" "1191242096"
        (some "a=1&oauth_nonce=zzz")).filter (fun q => q.1 == "oauth_nonce") =
      [("oauth_nonce", "aabbcc123"), ("oauth_nonce", "zzz")] := by decide

/-- Claim C4 (amended): the standalone engine's header is
`OAuth realm="<unescaped base_url>", ` followed by the present OAuth
parameters, each `name="value"`, comma-space separated, no trailing
separator, in strictly increasing byte-wise name order; the
dispatcher's header in `plurk.rs` instead appends `oauth_signature`
after the key-sorted parameters (and carries no realm, as the
counterexample shows). -/
theorem header_assembly :
    (∀ (o : Oauth1) (r : String), o.realm = some r →
      o.to_header = "OAuth realm=\"" ++ r ++ "\", " ++ specHeaderTail o.presentParams ∧
      List.Chain' (fun a b : String => cmpChars a.data b.data = Ordering.lt)
        (o.presentParams.map Prod.fst)) ∧
    (∀ (p : Plurk) (method baseUrl nonce ts : String) (body : Option String),
      p.headerParams method baseUrl nonce ts body =
        (p.sortedPool nonce ts body).filter (fun q => startsOauth q.1) ++
          [("oauth_signature", p.signature method baseUrl nonce ts body)]) := by
  constructor
  · intro o r h
    refine ⟨to_header_realm o r h, ?_⟩
    cases hcb : o.oauth_callback <;> cases ht : o.oauth_token <;>
      cases hv : o.oauth_verifier <;>
      simp [Oauth1.presentParams, hcb, ht, hv] <;> decide
  · intro p method baseUrl nonce ts body
    have hs : startsOauth "oauth_signature" = true := by decide
    simp [Plurk.headerParams, List.filter_append, List.filter_cons, hs]

/-- Witness for C4 (amended): a concrete signed engine state has its
realm set, and its header renders as the claim describes. -/
theorem header_assembly_witness :
    ((Oauth1.new (Secret.new "c1" "c2" none none) "n" "t").sign "POST" "u" "").realm =
      some "u" ∧
    ((Oauth1.new (Secret.new "c1" "c2" none none) "n" "t").sign "POST" "u" "").to_header =
      "OAuth realm=\"" ++ "u" ++ "\", " ++
        specHeaderTail ((Oauth1.new (Secret.new "c1" "c2" none none) "n" "t").sign
          "POST" "u" "").presentParams :=
  ⟨rfl, (header_assembly.1 _ "u" rfl).1⟩

/-- Counterexample for C4 as stated: the dispatcher's signing header
has no `OAuth realm="..."` prefix and emits `oauth_signature` last,
after `oauth_version`, breaking strict alphabetical order. -/
theorem plurk_header_no_realm_cex :
    ((Plurk.new "c1" "c2" (some "t1") (some "t2")).headerParams "POST"
        "https://www.plurk.com/APP/foo" "aabbcc123" "1191242096" (some "a=1")).map
        Prod.fst =
      ["oauth_consumer_key", "oauth_nonce", "oauth_signature_method", "oauth_timestamp",
       "oauth_token", "oauth_version", "oauth_signature"] ∧
    (Plurk.new "c1" "c2" (some "t1") (some "t2")).header "POST"
        "https://www.plurk.com/APP/foo" "aabbcc123" "1191242096" (some "a=1") =
      "OAuth oauth_consumer_key=\"c1\", oauth_nonce=\"aabbcc123\", oauth_signature_method=\"HMAC-SHA1\", oauth_timestamp=\"1191242096\", oauth_token=\"t1\", oauth_version=\"1.0\", oauth_signature=\"uK%2Bvba6M5pKC18FEffemAHfDDRY%3D\"" ∧
    isPrefixOfCl (String.data "OAuth realm")
      ((Plurk.new "c1" "c2" (some "t1") (some "t2")).header "POST"
        "https://www.plurk.com/APP/foo" "aabbcc123" "1191242096" (some "a=1")).data =
      false := by decide

/-- Claim C5 (amended): with credential c1/c2, token t3/t4, nonce
`aabbcc123`, timestamp `1191242096`, POST to
`https://www.example.com/API/foo` with body `a=1&b=2&ooo=345+`, signing
yields `oauth_signature` `DGrj27ipWXGB5Qv0aQ0hJenC6%2B4%3D`; the space
parsed from the trailing `+` is re-serialized as `+` by the form
serializer and percent-escaped to `%2B` in the base string. -/
theorem space_plus_signature :
    ((Oauth1.new ((Secret.new "c1" "c2" none none).update_token "t3" "t4") "aabbcc123"
        "1191242096").sign "POST" "https://www.example.com/API/foo"
        "a=1&b=2&ooo=345+").oauth_signature =
      "DGrj27ipWXGB5Qv0aQ0hJenC6%2B4%3D" ∧
    ((Oauth1.new ((Secret.new "c1" "c2" none none).update_token "t3" "t4") "aabbcc123"
        "1191242096").sign "POST" "https://www.example.com/API/foo"
        "a=1&b=2&ooo=345+").to_header =
      "OAuth realm=\"https://www.example.com/API/foo\", oauth_consumer_key=\"c1\", oauth_nonce=\"aabbcc123\", oauth_signature=\"DGrj27ipWXGB5Qv0aQ0hJenC6%2B4%3D\", oauth_signature_method=\"HMAC-SHA1\", oauth_timestamp=\"1191242096\", oauth_token=\"t3\", oauth_version=\"1.0\"" ∧
    (Oauth1.new ((Secret.new "c1" "c2" none none).update_token "t3" "t4") "aabbcc123"
        "1191242096").signBase "POST" "https://www.example.com/API/foo"
        "a=1&b=2&ooo=345+" =
      "POST&https%3A%2F%2Fwww.example.com%2FAPI%2Ffoo&a%3D1%26b%3D2%26oauth_consumer_key%3Dc1%26oauth_nonce%3Daabbcc123%26oauth_signature_method%3DHMAC-SHA1%26oauth_timestamp%3D1191242096%26oauth_token%3Dt3%26oauth_version%3D1.0%26ooo%3D345%2B" := by
  decide

/-- Counterexample for C5 as stated: the signing set holds the value
`345 ` with a real space, yet the serialized parameter string renders
it with `+` and the base string contains no `%20` anywhere — spaces are
not `%20`-encoded by this pipeline. -/
theorem space_not_percent20_cex :
    ("ooo", "345 ") ∈ (Oauth1.new ((Secret.new "c1" "c2" none none).update_token
        "t3" "t4") "aabbcc123" "1191242096").sortedPool "a=1&b=2&ooo=345+" ∧
    '+' ∈ ((Oauth1.new ((Secret.new "c1" "c2" none none).update_token "t3" "t4")
        "aabbcc123" "1191242096").rawQueryPart "a=1&b=2&ooo=345+").data ∧
    containsSub (String.data "%20")
      ((Oauth1.new ((Secret.new "c1" "c2" none none).update_token "t3" "t4")
        "aabbcc123" "1191242096").signBase "POST" "https://www.example.com/API/foo"
        "a=1&b=2&ooo=345+").data = false := by decide

/-- Claim C6 (amended): for bodies whose parsed keys and values use
only characters the serializer keeps verbatim, the transmitted body
after signing parses back to exactly the caller parameters with every
`oauth_*`-named entry removed and all other entries intact. -/
theorem transmitted_body_drops_oauth (pairs : List Pair)
    (h : ∀ q ∈ pairs, (∀ c ∈ q.1.data, isKeepChar c = true) ∧
      (∀ c ∈ q.2.data, isKeepChar c = true)) :
    querifyPairs (Plurk.newBody (formSerialize pairs)) =
      pairs.filter (fun q => !startsOauth q.1) := by
  unfold Plurk.newBody
  rw [querifyPairs_formSerialize pairs h]
  exact querifyPairs_formSerialize _ (fun q hq => h q (List.mem_of_mem_filter hq))

/-- Witness for C6 (amended): a handshake-style body keeps `a=1` and
drops `oauth_callback`. -/
theorem transmitted_body_drops_oauth_witness :
    (∀ q ∈ ([("a", "1"), ("oauth_callback", "oob")] : List Pair),
      (∀ c ∈ q.1.data, isKeepChar c = true) ∧ (∀ c ∈ q.2.data, isKeepChar c = true)) ∧
    querifyPairs (Plurk.newBody (formSerialize [("a", "1"), ("oauth_callback", "oob")])) =
      [("a", "1")] := by
  have h : ∀ q ∈ ([("a", "1"), ("oauth_callback", "oob")] : List Pair),
      (∀ c ∈ q.1.data, isKeepChar c = true) ∧ (∀ c ∈ q.2.data, isKeepChar c = true) := by
    decide
  refine ⟨h, (transmitted_body_drops_oauth _ h).trans (by decide)⟩

/-- Counterexample for C6 as stated: a caller parameter whose value
contains a space is not preserved — its body encoding `x=1+2` is
re-encoded to `x=1%2B2` by the signing rewrite, so the transmitted
entry differs from the caller-supplied one. -/
theorem body_reencodes_values_cex :
    formSerialize [("x", "1 2")] = "x=1+2" ∧
    Plurk.newBody "x=1+2" = "x=1%2B2" ∧
    querifyPairs "x=1+2" = [("x", "1+2")] ∧
    querifyPairs "x=1%2B2" = [("x", "1%2B2")] ∧
    (("x", "1%2B2") : Pair) ≠ ("x", "1 2") ∧
    (("x", "1%2B2") : Pair) ≠ ("x", "1+2") := by decide

/-- Claim C1: with consumer c1/c2, token t1/t2, nonce `aabbcc123`,
timestamp `1191242096`, POST to `https://www.example.com/API/foo` with
body `a=1&b=2&ooo=345`, signing with verifier `5566` set explicitly and
signing with `oauth_verifier=5566` embedded in the raw body produce
identical Authorization headers carrying
`oauth_signature=KRfqrNw25YTQUi9SvV6%2Fguq9YUQ%3D`. -/
theorem verifier_promotion_header_eq :
    (((Oauth1.new ((Secret.new "c1" "c2" none none).update_token "t1" "t2")
        "aabbcc123" "1191242096").test_set_verifier "5566").sign
        "POST" "https://www.example.com/API/foo" "a=1&b=2&ooo=345").to_header =
      ((Oauth1.new ((Secret.new "c1" "c2" none none).update_token "t1" "t2")
        "aabbcc123" "1191242096").sign
        "POST" "https://www.example.com/API/foo"
        "a=1&b=2&ooo=345&oauth_verifier=5566").to_header ∧
    (((Oauth1.new ((Secret.new "c1" "c2" none none).update_token "t1" "t2")
        "aabbcc123" "1191242096").test_set_verifier "5566").sign
        "POST" "https://www.example.com/API/foo" "a=1&b=2&ooo=345").oauth_signature =
      "KRfqrNw25YTQUi9SvV6%2Fguq9YUQ%3D" ∧
    (((Oauth1.new ((Secret.new "c1" "c2" none none).update_token "t1" "t2")
        "aabbcc123" "1191242096").test_set_verifier "5566").sign
        "POST" "https://www.example.com/API/foo" "a=1&b=2&ooo=345").to_header =
      "OAuth realm=\"https://www.example.com/API/foo\", oauth_consumer_key=\"c1\", oauth_nonce=\"aabbcc123\", oauth_signature=\"KRfqrNw25YTQUi9SvV6%2Fguq9YUQ%3D\", oauth_signature_method=\"HMAC-SHA1\", oauth_timestamp=\"1191242096\", oauth_token=\"t1\", oauth_verifier=\"5566\", oauth_version=\"1.0\"" := by
  decide

end RustPlurk
